import Mathlib

/-!
Verification of the ACME-IC backend (`ACME-IC-backend/src`): a shallow
embedding, in Lean 4, of the data model and operations of the certificate
authority canister — DER name encoding, the `AcmeKey` identity derivation,
the asynchronous signing-authority calls, ES256K signature verification,
the base64 handling of signed envelopes, the JWS protected-header type, the
generic request handler, the serial-number counter and certificate profile
selection — together with theorems settling the specification's claims
about them.

Machine integers are modelled as `Nat` with explicit reduction modulo
`2 ^ 64` where the Rust source uses wrapping `u64` arithmetic; byte strings
are `List Nat` with every element a byte value; fallible Rust code
(`unwrap`, `expect`, `todo!`) is modelled with `Option` / `Except`, a
`none` / `error` marking the panic.
-/

namespace AcmeIC

/-! ## Byte-string helpers -/

/-- Bytes of a string, one `Nat` per UTF-8 code unit (all inputs used here
are ASCII, so this is `Char.toNat` of each character). -/
def strBytes (s : String) : List Nat :=
  s.toList.map Char.toNat

/-- Big-endian interpretation of a byte string as a natural number. -/
def beNat (bs : List Nat) : Nat :=
  bs.foldl (fun acc b => acc * 256 + b) 0

/-- `u64::to_le_bytes`: the eight little-endian bytes of a 64-bit value
(this is the `Storable` encoding `ic_stable_structures` uses for `u64`). -/
def u64leBytes (n : Nat) : List Nat :=
  (List.range 8).map (fun i => n / 256 ^ i % 256)

/-- The modulus of Rust's `u64`. -/
def U64 : Nat := 2 ^ 64

/-! ## DER encoding of X.501 names

The Rust source stores certificate subjects as `x509_cert::name::Name`
(an `RDNSequence`) and DER-encodes them through the `der` crate.  We embed
a `Name` as its list of relative distinguished names, each a list of
attribute type-and-value pairs, and reproduce the crate's definite-length
TLV encoding. -/

/-- One `AttributeTypeAndValue`: the DER bytes of the attribute OID, the
ASN.1 string tag used for the value, and the value itself. -/
structure Atv where
  oid : List Nat
  tag : Nat
  value : String
deriving DecidableEq, Repr

/-- An X.501 `Name`: a sequence of RDNs, each a set of ATVs.  The empty
list is the empty name (`Name::is_empty`). -/
def Name : Type := List (List Atv)

instance : DecidableEq Name := by
  unfold Name
  infer_instance

/-- DER definite-length encoding: short form below 128, long form above. -/
def derLen (n : Nat) : List Nat :=
  if n < 128 then [n]
  else
    let rec beBytes (m : Nat) : List Nat :=
      if _h : m = 0 then [] else beBytes (m / 256) ++ [m % 256]
    let bs := beBytes n
    (128 + bs.length) :: bs

/-- A DER TLV: tag, then encoded length, then contents. -/
def derTLV (tag : Nat) (content : List Nat) : List Nat :=
  tag :: derLen content.length ++ content

/-- DER encoding of one `AttributeTypeAndValue` (SEQUENCE of OID and
tagged string). -/
def derAtv (a : Atv) : List Nat :=
  derTLV 0x30 (derTLV 0x06 a.oid ++ derTLV a.tag (strBytes a.value))

/-- DER encoding of one RDN (SET OF ATVs). -/
def derRdn (r : List Atv) : List Nat :=
  derTLV 0x31 (r.map derAtv).flatten

/-- DER encoding of a whole `Name` (SEQUENCE OF RDN).  This is what
`self.domain.encode_to_slice(..)` would produce given enough room; note it
always begins with the SEQUENCE tag `0x30`, so it is never empty. -/
def derName (n : Name) : List Nat :=
  derTLV 0x30 ((List.map derRdn n).flatten)

/-- OID 2.5.4.3 (`commonName`), as DER content bytes. -/
def oidCommonName : List Nat := [85, 4, 3]

/-- ASN.1 `PrintableString` tag. -/
def tagPrintableString : Nat := 0x13

/-- `Name::from_str("CN=IC ENCRYPT")` — the parsed root name: a single RDN
holding a single `commonName` attribute.  (`Name::from_str` is the external
`x509_cert` RFC 4514 parser; we embed its result on this fixed input.) -/
def rootNameParsed : Name :=
  [[⟨oidCommonName, tagPrintableString, "IC ENCRYPT"⟩]]

/-! ## `AcmeKey` (key.rs) -/

/-- `AcmeKey`: a certificate subject name plus the certificate serial
number; the pair from which the signing identity is derived. -/
structure AcmeKey where
  domain : Name
  serial_number : Nat
deriving DecidableEq

/-- `AcmeKey::new`. -/
def AcmeKey.new (domain : Name) (serial_number : Nat) : AcmeKey :=
  ⟨domain, serial_number⟩

/-- `AcmeKey::is_root`: whether the subject name is empty. -/
def AcmeKey.is_root (k : AcmeKey) : Bool :=
  decide (k.domain = ([] : List (List Atv)))

/-- `der::Encode::encode_to_slice(&self, buf: &mut [u8])`: serializes into
the given fixed-size buffer, failing (`Err`) when the buffer is too small;
on success it returns the written prefix.  The Rust call site passes a
`Vec` deref-coerced to a slice, so the writable space is the vector's
current *length*, not its capacity. -/
def encodeToSlice (data buf : List Nat) : Option (List Nat) :=
  if data.length ≤ buf.length then some data else none

/-! ## Keccak-512 (the `tiny_keccak` hash used by key.rs)

`Keccak::v512` is the original Keccak with a 576-bit capacity: rate 72
bytes, `0x01` multi-rate padding, and `finalize(output)` squeezing exactly
`output.len()` bytes.  The permutation is Keccak-f[1600] on 25 lanes of 64
bits; lanes are `Nat` values below `2 ^ 64`. -/

/-- Bitwise XOR of two 64-bit lanes. -/
def xor64 (a b : Nat) : Nat := Nat.xor a b

/-- Bitwise AND of two 64-bit lanes. -/
def and64 (a b : Nat) : Nat := Nat.land a b

/-- Bitwise complement of a 64-bit lane. -/
def not64 (a : Nat) : Nat := Nat.xor a (U64 - 1)

/-- Left-rotation of a 64-bit lane by `r < 64` positions. -/
def rotl64 (x r : Nat) : Nat :=
  Nat.lor (x <<< r % U64) (x >>> (64 - r))

/-- Little-endian interpretation of a byte string as a natural number. -/
def leNat (bs : List Nat) : Nat :=
  bs.foldr (fun b acc => acc * 256 + b) 0

/-- The Keccak-f[1600] rho rotation offset of the lane at `x + 5 * y`. -/
def rotOffset : Nat → Nat
  | 1 => 1
  | 2 => 62
  | 3 => 28
  | 4 => 27
  | 5 => 36
  | 6 => 44
  | 7 => 6
  | 8 => 55
  | 9 => 20
  | 10 => 3
  | 11 => 10
  | 12 => 43
  | 13 => 25
  | 14 => 39
  | 15 => 41
  | 16 => 45
  | 17 => 15
  | 18 => 21
  | 19 => 8
  | 20 => 18
  | 21 => 2
  | 22 => 61
  | 23 => 56
  | 24 => 14
  | _ => 0

/-- The 24 Keccak-f[1600] round constants (in decimal). -/
def keccakRC : List Nat :=
  [1, 32898, 9223372036854808714,
   9223372039002292224, 32907, 2147483649,
   9223372039002292353, 9223372036854808585, 138,
   136, 2147516425, 2147483658,
   2147516555, 9223372036854775947, 9223372036854808713,
   9223372036854808579, 9223372036854808578, 9223372036854775936,
   32778, 9223372039002259466, 9223372039002292353,
   9223372036854808704, 2147483649, 9223372039002292232]

/-- One Keccak-f round: theta, rho, pi, chi, iota.  The state is the list
of 25 lanes, lane `(x, y)` at index `x + 5 * y`. -/
def keccakRound (st : List Nat) (rc : Nat) : List Nat :=
  let A := fun i => st.getD i 0
  let C := fun x =>
    xor64 (A x) (xor64 (A (x + 5)) (xor64 (A (x + 10)) (xor64 (A (x + 15)) (A (x + 20)))))
  let D := fun x => xor64 (C ((x + 4) % 5)) (rotl64 (C ((x + 1) % 5)) 1)
  let At := fun i => xor64 (A i) (D (i % 5))
  let B := fun i =>
    let x := (i % 5 + 3 * (i / 5)) % 5
    let y := i % 5
    rotl64 (At (x + 5 * y)) (rotOffset (x + 5 * y))
  let chi := fun i =>
    let x := i % 5
    let y := i / 5
    xor64 (B i) (and64 (not64 (B ((x + 1) % 5 + 5 * y))) (B ((x + 2) % 5 + 5 * y)))
  (List.range 25).map (fun i => if i = 0 then xor64 (chi 0) rc else chi i)

/-- The full Keccak-f[1600] permutation: 24 rounds. -/
def keccakF (st : List Nat) : List Nat :=
  keccakRC.foldl keccakRound st

/-- The all-zero initial sponge state. -/
def keccakInit : List Nat := List.replicate 25 0

/-- Keccak multi-rate padding at rate 72 with the `0x01` Keccak domain
byte: append `0x01`, zero-fill to the block boundary, set the top bit of
the final block byte. -/
def pad101 (msg : List Nat) : List Nat :=
  let padLen := 72 - msg.length % 72
  if padLen = 1 then msg ++ [0x81]
  else msg ++ 0x01 :: List.replicate (padLen - 2) 0 ++ [0x80]

/-- Split a byte string into its successive 72-byte blocks. -/
def chunks72 (l : List Nat) : List (List Nat) :=
  if _h : l = [] then []
  else l.take 72 :: chunks72 (l.drop 72)
termination_by l.length
decreasing_by
  simp only [List.length_drop]
  have := List.length_pos.mpr _h
  omega

/-- Lane `i` of a 72-byte rate block, read little-endian. -/
def blockLane (block : List Nat) (i : Nat) : Nat :=
  leNat ((block.drop (8 * i)).take 8)

/-- Absorb one 72-byte block: XOR it into the first nine lanes and apply
the permutation. -/
def absorbBlock (st : List Nat) (block : List Nat) : List Nat :=
  keccakF ((List.range 25).map fun i =>
    if i < 9 then xor64 (st.getD i 0) (blockLane block i) else st.getD i 0)

/-- Absorb a sequence of rate blocks. -/
def absorbBlocks (st : List Nat) (blocks : List (List Nat)) : List Nat :=
  blocks.foldl absorbBlock st

/-- The 72 rate bytes of a sponge state, little-endian per lane. -/
def stateBytes (st : List Nat) : List Nat :=
  (List.range 72).map (fun j => st.getD (j / 8) 0 / 256 ^ (j % 8) % 256)

/-- Squeeze `b` successive rate blocks out of the sponge. -/
def squeezeBlocks (st : List Nat) : Nat → List Nat
  | 0 => []
  | b + 1 => stateBytes st ++ squeezeBlocks (keccakF st) b

/-- `Keccak::v512` absorbed over `msg` and squeezed to exactly `n` output
bytes — `tiny_keccak`'s `finalize(output)` with an `n`-byte `output`. -/
def keccakSqueeze (msg : List Nat) (n : Nat) : List Nat :=
  (squeezeBlocks (absorbBlocks keccakInit (chunks72 (pad101 msg))) ((n + 71) / 72)).take n

/-! ## `AcmeKey::id`, `hash_mesage` and the signing-authority calls -/

/-- `AcmeKey::id`: DER-encode the domain with `encode_to_slice` into the
freshly created (empty) `buff`, feed the encoding and the serial number's
`Storable` bytes to Keccak-512, clear `buff`, and `finalize` into it.
The `encode_to_slice` call writes into a zero-length slice and its
`unwrap` panics (`none`); in the hypothetical success branch, `finalize`
into the cleared buffer would squeeze zero bytes. -/
def AcmeKey.id (k : AcmeKey) : Option (List Nat) :=
  match encodeToSlice (derName k.domain) [] with
  | none => none
  | some der => some (keccakSqueeze (der ++ u64leBytes k.serial_number) 0)

/-- `AcmeKey::hash_mesage(msg, buff)`: absorb `msg` and squeeze the digest
into `buff` — `tiny_keccak::Hasher::finalize` writes exactly as many bytes
as the output buffer already holds. -/
def AcmeKey.hash_mesage (msg buff : List Nat) : List Nat :=
  keccakSqueeze msg buff.length

/-- `Vec::with_capacity(n)`: reserves capacity only; the vector's length —
the extent `finalize` can write into once deref-coerced to a slice — is 0. -/
def vecWithCapacity (_n : Nat) : List Nat := []

/-- The `SignWithEcdsaArgument` fields the code fills (the key id is a
configuration constant). -/
structure SignWithEcdsaArgument where
  message_hash : List Nat
  derivation_path : List (List Nat)
deriving DecidableEq

/-- The argument `AcmeKey::try_sign` builds for `sign_with_ecdsa`: compute
the derivation id (which panics, `none`), hash the message into a
`Vec::with_capacity(32)` buffer, and assemble the argument. -/
def AcmeKey.trySignArg (k : AcmeKey) (msg : List Nat) : Option SignWithEcdsaArgument :=
  match AcmeKey.id k with
  | none => none
  | some i => some ⟨AcmeKey.hash_mesage msg (vecWithCapacity 32), [i]⟩

/-- `EcdsaPublicKeyResponse` with its `Default` value (empty byte
strings). -/
structure EcdsaPublicKeyResponse where
  public_key : List Nat
  chain_code : List Nat
deriving DecidableEq

/-- `EcdsaPublicKeyResponse::default()`. -/
def ecdsaPublicKeyResponseDefault : EcdsaPublicKeyResponse := ⟨[], []⟩

/-- The `Rc<RefCell<_>>` result cell right after `ic_cdk::spawn` returns:
it holds either the completed response (when the awaited call finished
synchronously, dropping the future's clone) or still the default
placeholder with the suspended future keeping its clone alive. -/
structure SpawnedCell (α : Type) where
  value : α
  futureAlive : Bool

/-- Spawn the fire-and-forget future that awaits the signing authority and
writes the response through its clone of the cell.  On the Internet
Computer an inter-canister call never completes within the calling
execution, so the real runs have `completesSync = false`. -/
def spawnAwaitInto {α : Type} (completesSync : Bool) (resp dflt : α) : SpawnedCell α :=
  if completesSync then ⟨resp, false⟩ else ⟨dflt, true⟩

/-- `Rc::into_inner`: succeeds only when the caller holds the sole
remaining reference, i.e. the spawned future has already finished and
dropped its clone. -/
def rcIntoInner {α : Type} (c : SpawnedCell α) : Option α :=
  if c.futureAlive then none else some c.value

/-- `AcmeKey::verifying_key` as a run: build the public-key request (whose
`derivation_path` computes `self.id()`), spawn the asynchronous
`ecdsa_public_key` call, then immediately `Rc::into_inner(..).unwrap()`
the shared cell and return the raw SEC1 public-key bytes (afterwards
parsed by the external `k256` crate).  `none` is a panic. -/
def AcmeKey.verifyingKeyRun (k : AcmeKey) (completesSync : Bool)
    (resp : EcdsaPublicKeyResponse) : Option (List Nat) :=
  match AcmeKey.id k with
  | none => none
  | some _ =>
    match rcIntoInner (spawnAwaitInto completesSync resp ecdsaPublicKeyResponseDefault) with
    | none => none
    | some r => some r.public_key

/-- `AcmeKey::try_sign` as a run: build the `SignWithEcdsaArgument`, spawn
the asynchronous `sign_with_ecdsa` call, then immediately
`Rc::into_inner(..).unwrap()` the shared cell and return the raw signature
bytes (the `SignWithEcdsaResponse` default holds an empty signature).
`none` is a panic. -/
def AcmeKey.trySignRun (k : AcmeKey) (msg : List Nat) (completesSync : Bool)
    (respSignature : List Nat) : Option (List Nat) :=
  match AcmeKey.trySignArg k msg with
  | none => none
  | some _ =>
    match rcIntoInner (spawnAwaitInto completesSync respSignature []) with
    | none => none
    | some s => some s

/-! ## SHA-256 (the digest `k256`'s ECDSA verifier applies to messages) -/

/-- The modulus of a 32-bit word. -/
def U32 : Nat := 2 ^ 32

/-- Right-rotation of a 32-bit word by `r < 32` positions. -/
def rotr32 (x r : Nat) : Nat :=
  Nat.lor (x >>> r) (x <<< (32 - r) % U32)

/-- Bitwise XOR of 32-bit words. -/
def xor32 (a b : Nat) : Nat := Nat.xor a b

/-- Bitwise AND of 32-bit words. -/
def and32 (a b : Nat) : Nat := Nat.land a b

/-- Bitwise complement of a 32-bit word. -/
def not32 (a : Nat) : Nat := Nat.xor a (U32 - 1)

/-- The first `n` big-endian bytes of a value. -/
def beBytesFixed (n v : Nat) : List Nat :=
  (List.range n).map (fun i => v / 256 ^ (n - 1 - i) % 256)

/-- The SHA-256 round constants (FIPS 180-4, in decimal). -/
def sha256K : List Nat :=
  [1116352408, 1899447441, 3049323471, 3921009573, 961987163, 1508970993,
   2453635748, 2870763221, 3624381080, 310598401, 607225278, 1426881987,
   1925078388, 2162078206, 2614888103, 3248222580, 3835390401, 4022224774,
   264347078, 604807628, 770255983, 1249150122, 1555081692, 1996064986,
   2554220882, 2821834349, 2952996808, 3210313671, 3336571891, 3584528711,
   113926993, 338241895, 666307205, 773529912, 1294757372, 1396182291,
   1695183700, 1986661051, 2177026350, 2456956037, 2730485921, 2820302411,
   3259730800, 3345764771, 3516065817, 3600352804, 4094571909, 275423344,
   430227734, 506948616, 659060556, 883997877, 958139571, 1322822218,
   1537002063, 1747873779, 1955562222, 2024104815, 2227730452, 2361852424,
   2428436474, 2756734187, 3204031479, 3329325298]

/-- The SHA-256 initial hash value (in decimal). -/
def sha256H0 : List Nat :=
  [1779033703, 3144134277, 1013904242, 2773480762,
   1359893119, 2600822924, 528734635, 1541459225]

/-- SHA-256 message padding: `0x80`, zero fill, 64-bit big-endian bit
length. -/
def sha256Pad (msg : List Nat) : List Nat :=
  let l := msg.length
  msg ++ 0x80 :: List.replicate ((64 - (l + 9) % 64) % 64) 0 ++ beBytesFixed 8 (8 * l)

/-- Split a byte string into its successive 64-byte blocks. -/
def chunks64 (l : List Nat) : List (List Nat) :=
  if _h : l = [] then []
  else l.take 64 :: chunks64 (l.drop 64)
termination_by l.length
decreasing_by
  simp only [List.length_drop]
  have := List.length_pos.mpr _h
  omega

/-- The 64-word SHA-256 message schedule of one block. -/
def sha256Schedule (block : List Nat) : List Nat :=
  let w0 := (List.range 16).map (fun i => beNat ((block.drop (4 * i)).take 4))
  (List.range 48).foldl
    (fun w _ =>
      let i := w.length
      let wa := w.getD (i - 15) 0
      let wb := w.getD (i - 2) 0
      let s0 := xor32 (rotr32 wa 7) (xor32 (rotr32 wa 18) (wa >>> 3))
      let s1 := xor32 (rotr32 wb 17) (xor32 (rotr32 wb 19) (wb >>> 10))
      w ++ [(w.getD (i - 16) 0 + s0 + w.getD (i - 7) 0 + s1) % U32])
    w0

/-- One SHA-256 compression round over the eight working registers. -/
def sha256Rounds (w : List Nat) (h0 : List Nat) : List Nat :=
  (List.range 64).foldl
    (fun st i =>
      let a := st.getD 0 0
      let b := st.getD 1 0
      let c := st.getD 2 0
      let d := st.getD 3 0
      let e := st.getD 4 0
      let f := st.getD 5 0
      let g := st.getD 6 0
      let hh := st.getD 7 0
      let S1 := xor32 (rotr32 e 6) (xor32 (rotr32 e 11) (rotr32 e 25))
      let ch := xor32 (and32 e f) (and32 (not32 e) g)
      let t1 := (hh + S1 + ch + sha256K.getD i 0 + w.getD i 0) % U32
      let S0 := xor32 (rotr32 a 2) (xor32 (rotr32 a 13) (rotr32 a 22))
      let maj := xor32 (and32 a b) (xor32 (and32 a c) (and32 b c))
      let t2 := (S0 + maj) % U32
      [(t1 + t2) % U32, a, b, c, (d + t1) % U32, e, f, g])
    h0

/-- SHA-256 compression of one 64-byte block into the chaining value. -/
def sha256Compress (h : List Nat) (block : List Nat) : List Nat :=
  let final := sha256Rounds (sha256Schedule block) h
  (List.range 8).map (fun i => (h.getD i 0 + final.getD i 0) % U32)

/-- The SHA-256 digest (32 bytes) of a byte string. -/
def sha256 (msg : List Nat) : List Nat :=
  (((chunks64 (sha256Pad msg)).foldl sha256Compress sha256H0).map (beBytesFixed 4)).flatten

/-! ## secp256k1 ECDSA (the external `k256` crate's verification) -/

/-- The secp256k1 base-field prime. -/
def secpP : Nat :=
  0xfffffffffffffffffffffffffffffffffffffffffffffffffffffffefffffc2f

/-- The secp256k1 group order. -/
def secpN : Nat :=
  0xfffffffffffffffffffffffffffffffebaaedce6af48a03bbfd25e8cd0364141

/-- The x-coordinate of the secp256k1 generator. -/
def secpGx : Nat :=
  0x79be667ef9dcbbac55a06295ce870b07029bfcdb2dce28d959f2815b16f81798

/-- The y-coordinate of the secp256k1 generator. -/
def secpGy : Nat :=
  0x483ada7726a3c4655da4fbfc0e1108a8fd17b448a68554199c47d08ffb10d4b8

/-- Modular exponentiation by repeated squaring. -/
def powMod (b e m : Nat) : Nat :=
  if _h : e = 0 then 1 % m
  else
    let r := powMod (b * b % m) (e / 2) m
    if e % 2 = 1 then r * b % m else r
termination_by e
decreasing_by omega

/-- Field addition modulo the base prime. -/
def fadd (a b : Nat) : Nat := (a + b) % secpP

/-- Field subtraction modulo the base prime. -/
def fsub (a b : Nat) : Nat := (a % secpP + (secpP - b % secpP)) % secpP

/-- Field multiplication modulo the base prime. -/
def fmul (a b : Nat) : Nat := a * b % secpP

/-- Field inversion via Fermat's little theorem. -/
def finv (a : Nat) : Nat := powMod a (secpP - 2) secpP

/-- An affine secp256k1 point, `none` being the point at infinity. -/
def ECPoint : Type := Option (Nat × Nat)

/-- secp256k1 point doubling. -/
def ecDouble (q : Nat × Nat) : ECPoint :=
  if q.2 % secpP = 0 then none
  else
    let lam := fmul (fmul 3 (fmul q.1 q.1)) (finv (fmul 2 q.2))
    let x3 := fsub (fmul lam lam) (fadd q.1 q.1)
    some (x3, fsub (fmul lam (fsub q.1 x3)) q.2)

/-- secp256k1 point addition. -/
def ecAdd (p q : ECPoint) : ECPoint :=
  match p, q with
  | none, q => q
  | p, none => p
  | some (x1, y1), some (x2, y2) =>
    if x1 % secpP = x2 % secpP then
      if (y1 + y2) % secpP = 0 then none else ecDouble (x1, y1)
    else
      let lam := fmul (fsub y2 y1) (finv (fsub x2 x1))
      let x3 := fsub (fmul lam lam) (fadd x1 x2)
      some (x3, fsub (fmul lam (fsub x1 x3)) y1)

/-- secp256k1 scalar multiplication by double-and-add. -/
def ecMul (k : Nat) (p : ECPoint) : ECPoint :=
  if _h : k = 0 then none
  else
    let half := ecMul (k / 2) (ecAdd p p)
    if k % 2 = 1 then ecAdd half p else half
termination_by k
decreasing_by omega

/-- Whether `(x, y)` satisfies the secp256k1 curve equation. -/
def onCurve (x y : Nat) : Bool :=
  y * y % secpP == (x * x % secpP * x + 7) % secpP

/-- Standard ECDSA verification over secp256k1 of the scalar digest `z`
against the public point `q` and the signature scalars `(r, s)` (both
already known to lie in `[1, n-1]`): accept when the x-coordinate of
`(z/s)·G + (r/s)·Q` is congruent to `r` mod `n`. -/
def ecdsaVerify (q : Nat × Nat) (z r s : Nat) : Bool :=
  let sInv := powMod s (secpN - 2) secpN
  let u1 := z % secpN * sInv % secpN
  let u2 := r % secpN * sInv % secpN
  match ecAdd (ecMul u1 (some (secpGx, secpGy))) (ecMul u2 (some q)) with
  | none => false
  | some xy => xy.1 % secpN == r

/-! ## `Es256kPublicKey` (handler/types.rs) -/

/-- `Es256kPublicKey`: a raw secp256k1 public key (a point on the
curve). -/
structure Es256kPublicKey where
  point : Nat × Nat
deriving DecidableEq

/-- `k256::ecdsa::Signature::try_from(&[u8])`: the 64-byte fixed-size
`r || s` encoding, both scalars big-endian, nonzero and below the group
order; anything else is an error. -/
def parseSignature (sig : List Nat) : Option (Nat × Nat) :=
  if sig.length = 64 then
    let r := beNat (sig.take 32)
    let s := beNat (sig.drop 32)
    if r = 0 ∨ s = 0 ∨ secpN ≤ r ∨ secpN ≤ s then none else some (r, s)
  else none

/-- `Es256kPublicKey::verify(msg, sig)`: deserialize the signature with
`.expect(..)` — a panic (`none`) when the bytes do not parse — then run
the `k256` ECDSA verifier (which hashes `msg` with SHA-256) and fold its
result into a boolean. -/
def Es256kPublicKey.verify (k : Es256kPublicKey) (msg sig : List Nat) : Option Bool :=
  match parseSignature sig with
  | none => none
  | some rs => some (ecdsaVerify k.point (beNat (sha256 msg)) rs.1 rs.2)

/-! ## Base64 (the `base64` crate engines)

`GeneralRequest::decode_base64` calls `BASE64_STANDARD.decode`: the
standard alphabet (`+`, `/`), canonical `=` padding required, trailing
bits required to be zero.  The URL-safe alphabet of RFC 4648 §5 (`-`,
`_`), unpadded as the JWS convention prescribes, is embedded separately to
state what base64url validity means. -/

/-- The value of one standard-alphabet base64 symbol byte. -/
def b64StdVal (c : Nat) : Option Nat :=
  if 65 ≤ c ∧ c ≤ 90 then some (c - 65)
  else if 97 ≤ c ∧ c ≤ 122 then some (c - 97 + 26)
  else if 48 ≤ c ∧ c ≤ 57 then some (c - 48 + 52)
  else if c = 43 then some 62
  else if c = 47 then some 63
  else none

/-- The value of one URL-safe-alphabet base64 symbol byte. -/
def b64UrlVal (c : Nat) : Option Nat :=
  if 65 ≤ c ∧ c ≤ 90 then some (c - 65)
  else if 97 ≤ c ∧ c ≤ 122 then some (c - 97 + 26)
  else if 48 ≤ c ∧ c ≤ 57 then some (c - 48 + 52)
  else if c = 45 then some 62
  else if c = 95 then some 63
  else none

/-- The three data bytes of a full base64 quartet. -/
def b64Bytes3 (v1 v2 v3 v4 : Nat) : List Nat :=
  [v1 * 4 + v2 / 16, v2 % 16 * 16 + v3 / 4, v3 % 4 * 64 + v4]

/-- `BASE64_STANDARD.decode`: quartets of standard-alphabet symbols,
canonical `=` padding closing the final quartet only, zero trailing bits,
input length a multiple of four. -/
def base64StdDecode : List Nat → Option (List Nat)
  | [] => some []
  | c1 :: c2 :: c3 :: c4 :: rest =>
    match b64StdVal c1, b64StdVal c2 with
    | some v1, some v2 =>
      if c3 = 61 then
        if c4 = 61 ∧ rest = [] ∧ v2 % 16 = 0 then some [v1 * 4 + v2 / 16] else none
      else
        match b64StdVal c3 with
        | some v3 =>
          if c4 = 61 then
            if rest = [] ∧ v3 % 4 = 0 then some [v1 * 4 + v2 / 16, v2 % 16 * 16 + v3 / 4]
            else none
          else
            match b64StdVal c4 with
            | some v4 => (base64StdDecode rest).map (fun bs => b64Bytes3 v1 v2 v3 v4 ++ bs)
            | none => none
        | none => none
    | _, _ => none
  | _ => none

/-- Unpadded base64url decoding per RFC 4648 §5 as the JWS convention uses
it: URL-safe symbols, no `=` padding, a final quantum of two or three
symbols with zero trailing bits.  A byte string is *valid base64url*
exactly when this succeeds. -/
def b64UrlDecode : List Nat → Option (List Nat)
  | [] => some []
  | [c1, c2] =>
    match b64UrlVal c1, b64UrlVal c2 with
    | some v1, some v2 => if v2 % 16 = 0 then some [v1 * 4 + v2 / 16] else none
    | _, _ => none
  | [c1, c2, c3] =>
    match b64UrlVal c1, b64UrlVal c2, b64UrlVal c3 with
    | some v1, some v2, some v3 =>
      if v3 % 4 = 0 then some [v1 * 4 + v2 / 16, v2 % 16 * 16 + v3 / 4] else none
    | _, _, _ => none
  | c1 :: c2 :: c3 :: c4 :: rest =>
    match b64UrlVal c1, b64UrlVal c2, b64UrlVal c3, b64UrlVal c4 with
    | some v1, some v2, some v3, some v4 =>
      (b64UrlDecode rest).map (fun bs => b64Bytes3 v1 v2 v3 v4 ++ bs)
    | _, _, _, _ => none
  | _ => none

/-- The standard-alphabet symbol byte of a 6-bit value. -/
def b64StdChar (v : Nat) : Nat :=
  if v < 26 then 65 + v
  else if v < 52 then 97 + (v - 26)
  else if v < 62 then 48 + (v - 52)
  else if v = 62 then 43
  else 47

/-- Standard base64 encoding with padding (used to construct test
envelopes the way a client would). -/
def b64StdEncodeBytes : List Nat → List Nat
  | [] => []
  | [b1] => [b64StdChar (b1 / 4), b64StdChar (b1 % 4 * 16), 61, 61]
  | [b1, b2] => [b64StdChar (b1 / 4), b64StdChar (b1 % 4 * 16 + b2 / 16), b64StdChar (b2 % 16 * 4), 61]
  | b1 :: b2 :: b3 :: rest =>
    b64StdChar (b1 / 4) :: b64StdChar (b1 % 4 * 16 + b2 / 16) ::
      b64StdChar (b2 % 16 * 4 + b3 / 64) :: b64StdChar (b3 % 64) :: b64StdEncodeBytes rest

/-- Standard base64 encoding to a string. -/
def b64StdEncode (bs : List Nat) : String :=
  String.mk ((b64StdEncodeBytes bs).map Char.ofNat)

/-! ## `GenericError` and the handler plumbing (handler/mod.rs) -/

/-- `GenericError`: an error message with an HTTP status code. -/
structure GenericError where
  code : Nat
  err : String
deriving DecidableEq

/-- `StatusCode::BAD_REQUEST`. -/
def statusBadRequest : Nat := 400

/-- `StatusCode::FORBIDDEN`. -/
def statusForbidden : Nat := 403

/-- `GenericError::bad_request`. -/
def GenericError.bad_request (e : String) : GenericError :=
  ⟨statusBadRequest, e⟩

/-- `GenericError::forbidden`. -/
def GenericError.forbidden (e : String) : GenericError :=
  ⟨statusForbidden, e⟩

/-- `GenericError::default_bad_request`. -/
def GenericError.default_bad_request : GenericError :=
  GenericError.bad_request "failed to deserialize incoming request"

/-! ## JSON values and `serde_json` parsing

The envelope fields are deserialized through `serde_json::from_slice`.  We
embed a JSON value type and a recursive-descent parser over byte strings
(integers only; floating-point literals and `\u` escapes are outside what
any input here uses). -/

/-- A JSON value. -/
inductive Json where
  | null : Json
  | bool (b : Bool) : Json
  | num (n : Int) : Json
  | str (s : String) : Json
  | arr (elems : List Json) : Json
  | obj (fields : List (String × Json)) : Json

/-- Decode a byte string as the `String` it spells (ASCII). -/
def strOfBytes (bs : List Nat) : String :=
  String.mk (bs.map Char.ofNat)

/-- Skip JSON whitespace. -/
def skipWs : List Nat → List Nat
  | b :: rest =>
    if b = 32 ∨ b = 9 ∨ b = 10 ∨ b = 13 then skipWs rest else b :: rest
  | [] => []

/-- Whether a byte is an ASCII digit. -/
def isDigitByte (b : Nat) : Bool :=
  decide (48 ≤ b) && decide (b ≤ 57)

/-- Parse the body of a JSON string after its opening quote, returning
the content bytes and the input past the closing quote. -/
def parseJsonStringBody : List Nat → Option (List Nat × List Nat)
  | [] => none
  | 34 :: rest => some ([], rest)
  | 92 :: e :: rest =>
    let mapped : Option Nat :=
      if e = 34 then some 34
      else if e = 92 then some 92
      else if e = 47 then some 47
      else if e = 110 then some 10
      else if e = 116 then some 9
      else if e = 114 then some 13
      else if e = 98 then some 8
      else if e = 102 then some 12
      else none
    match mapped with
    | some c => (parseJsonStringBody rest).map (fun p => (c :: p.1, p.2))
    | none => none
  | b :: rest => (parseJsonStringBody rest).map (fun p => (b :: p.1, p.2))

/-- Parse a JSON integer literal. -/
def parseJsonNumber (bs : List Nat) : Option (Json × List Nat) :=
  let sgn := match bs with
    | 45 :: r => (true, r)
    | _ => (false, bs)
  let digits := sgn.2.takeWhile isDigitByte
  let rest := sgn.2.dropWhile isDigitByte
  if digits.isEmpty then none
  else
    match rest with
    | 46 :: _ => none
    | 101 :: _ => none
    | 69 :: _ => none
    | _ =>
      let v : Int := Int.ofNat (digits.foldl (fun a b => a * 10 + (b - 48)) 0)
      some (Json.num (if sgn.1 then -v else v), rest)

mutual

/-- Parse one JSON value (fuel-bounded recursive descent). -/
def parseJsonValue : Nat → List Nat → Option (Json × List Nat)
  | 0, _ => none
  | fuel + 1, bs =>
    match skipWs bs with
    | [] => none
    | b :: rest =>
      if b = 110 then
        match rest with
        | 117 :: 108 :: 108 :: r => some (Json.null, r)
        | _ => none
      else if b = 116 then
        match rest with
        | 114 :: 117 :: 101 :: r => some (Json.bool true, r)
        | _ => none
      else if b = 102 then
        match rest with
        | 97 :: 108 :: 115 :: 101 :: r => some (Json.bool false, r)
        | _ => none
      else if b = 34 then
        (parseJsonStringBody rest).map (fun p => (Json.str (strOfBytes p.1), p.2))
      else if b = 91 then
        match skipWs rest with
        | 93 :: r => some (Json.arr [], r)
        | r2 => (parseJsonElems fuel r2).map (fun p => (Json.arr p.1, p.2))
      else if b = 123 then
        match skipWs rest with
        | 125 :: r => some (Json.obj [], r)
        | r2 => (parseJsonMembers fuel r2).map (fun p => (Json.obj p.1, p.2))
      else if b = 45 ∨ isDigitByte b then parseJsonNumber (b :: rest)
      else none

/-- Parse the elements of a nonempty JSON array up to its closing
bracket. -/
def parseJsonElems : Nat → List Nat → Option (List Json × List Nat)
  | 0, _ => none
  | fuel + 1, bs =>
    match parseJsonValue fuel bs with
    | none => none
    | some (v, rest) =>
      match skipWs rest with
      | 44 :: r2 => (parseJsonElems fuel r2).map (fun p => (v :: p.1, p.2))
      | 93 :: r2 => some ([v], r2)
      | _ => none

/-- Parse the members of a nonempty JSON object up to its closing
brace. -/
def parseJsonMembers : Nat → List Nat → Option (List (String × Json) × List Nat)
  | 0, _ => none
  | fuel + 1, bs =>
    match skipWs bs with
    | 34 :: r =>
      match parseJsonStringBody r with
      | none => none
      | some (kbytes, r2) =>
        match skipWs r2 with
        | 58 :: r3 =>
          match parseJsonValue fuel r3 with
          | none => none
          | some (v, r4) =>
            match skipWs r4 with
            | 44 :: r5 =>
              (parseJsonMembers fuel r5).map (fun p => ((strOfBytes kbytes, v) :: p.1, p.2))
            | 125 :: r5 => some ([(strOfBytes kbytes, v)], r5)
            | _ => none
        | _ => none
    | _ => none

end

/-- `serde_json` parsing of a whole byte string into one JSON value. -/
def jsonParse (bs : List Nat) : Option Json :=
  match parseJsonValue (bs.length + 1) bs with
  | some (v, rest) => if skipWs rest = [] then some v else none
  | none => none

/-! ## The JWS protected-header types (handler/types.rs) -/

/-- How many times a key occurs in a JSON object (serde rejects duplicate
known fields). -/
def fieldCount (fs : List (String × Json)) (k : String) : Nat :=
  (fs.filter (fun p => p.1 = k)).length

/-- The value of a field of a JSON object. -/
def lookupField (fs : List (String × Json)) (k : String) : Option Json :=
  (fs.find? (fun p => p.1 = k)).map (fun p => p.2)

/-- serde: a required `String` struct field. -/
def reqString (fs : List (String × Json)) (k : String) : Option String :=
  if fieldCount fs k = 1 then
    match lookupField fs k with
    | some (Json.str s) => some s
    | _ => none
  else none

/-- serde: an `Option<String>` struct field — absent or `null` is `None`,
a string is `Some`, anything else an error. -/
def optString (fs : List (String × Json)) (k : String) : Option (Option String) :=
  match fieldCount fs k with
  | 0 => some none
  | 1 =>
    match lookupField fs k with
    | some Json.null => some none
    | some (Json.str s) => some (some s)
    | _ => none
  | _ => none

/-- serde: a `Vec<u8>` from a JSON array of byte-range integers. -/
def jsonBytes : Json → Option (List Nat)
  | Json.arr es =>
    es.foldr
      (fun e acc =>
        match e, acc with
        | Json.num n, some bs => if 0 ≤ n ∧ n < 256 then some (n.toNat :: bs) else none
        | _, _ => none)
      (some [])
  | _ => none

/-- DER TLV parsing: tag, content, remainder (definite lengths only). -/
def derParseTLV (bs : List Nat) : Option (Nat × List Nat × List Nat) :=
  match bs with
  | t :: l :: rest =>
    if l < 128 then
      if l ≤ rest.length then some (t, rest.take l, rest.drop l) else none
    else
      let nb := l - 128
      if nb = 0 ∨ rest.length < nb then none
      else
        let len := beNat (rest.take nb)
        let rest2 := rest.drop nb
        if len ≤ rest2.length then some (t, rest2.take len, rest2.drop len) else none
  | _ => none

/-- The DER content of the SPKI `AlgorithmIdentifier` for `ecPublicKey`
over secp256k1 (OIDs 1.2.840.10045.2.1 and 1.3.132.0.10). -/
def spkiAlgIdContent : List Nat :=
  [6, 7, 42, 134, 72, 206, 61, 2, 1, 6, 5, 43, 129, 4, 0, 10]

/-- SEC1 point decoding: an uncompressed `04 || x || y` point or a
compressed `02/03 || x` point, required to lie on the curve. -/
def parseSec1 (pt : List Nat) : Option (Nat × Nat) :=
  match pt with
  | 4 :: rest =>
    if rest.length = 64 then
      let x := beNat (rest.take 32)
      let y := beNat (rest.drop 32)
      if x < secpP ∧ y < secpP ∧ onCurve x y then some (x, y) else none
    else none
  | tag :: rest =>
    if (tag = 2 ∨ tag = 3) ∧ rest.length = 32 then
      let x := beNat rest
      let y2 := (x * x % secpP * x + 7) % secpP
      let y := powMod y2 ((secpP + 1) / 4) secpP
      if x < secpP ∧ y * y % secpP = y2 then
        some (x, if y % 2 = tag % 2 then y else secpP - y)
      else none
    else none
  | _ => none

/-- `Es256kPublicKey::from_public_key_der`: parse a DER
`SubjectPublicKeyInfo` (the secp256k1 `AlgorithmIdentifier` followed by a
BIT STRING holding the SEC1 point). -/
def Es256kPublicKey.from_public_key_der (bs : List Nat) : Option Es256kPublicKey :=
  match derParseTLV bs with
  | some (48, content, []) =>
    match derParseTLV content with
    | some (48, algid, rest) =>
      if algid = spkiAlgIdContent then
        match derParseTLV rest with
        | some (3, 0 :: pt, []) => (parseSec1 pt).map (fun p => ⟨p⟩)
        | _ => none
      else none
    | _ => none
  | _ => none

/-- `RawJwkPublicKey`: the supported raw JWK key kinds. -/
inductive RawJwkPublicKey where
  | ES256K (key : Es256kPublicKey) : RawJwkPublicKey
  | Ed25519 : RawJwkPublicKey
deriving DecidableEq

/-- serde: externally tagged deserialization of `RawJwkPublicKey` — the
unit variant from its bare name or a one-field object with `null`, the
newtype variant from a one-field object whose value is the `Vec<u8>` DER
key. -/
def rawJwkFromJson : Json → Option RawJwkPublicKey
  | Json.str s => if s = "Ed25519" then some RawJwkPublicKey.Ed25519 else none
  | Json.obj [(k, v)] =>
    if k = "Ed25519" then
      match v with
      | Json.null => some RawJwkPublicKey.Ed25519
      | _ => none
    else if k = "ES256K" then
      (jsonBytes v).bind (fun bs =>
        (Es256kPublicKey.from_public_key_der bs).map RawJwkPublicKey.ES256K)
    else none
  | _ => none

/-- serde: an `Option<RawJwkPublicKey>` struct field. -/
def optRawJwk (fs : List (String × Json)) (k : String) : Option (Option RawJwkPublicKey) :=
  match fieldCount fs k with
  | 0 => some none
  | 1 =>
    match lookupField fs k with
    | some Json.null => some none
    | some v => (rawJwkFromJson v).map some
    | none => none
  | _ => none

/-- `JwkHeader` (handler/types.rs): the decoded protected header.  Both
`kid` and `jwk` are independent `Option` fields — the type states no
mutual exclusion between them. -/
structure JwkHeader where
  alg : String
  url : String
  nonce : String
  kid : Option String
  jwk : Option RawJwkPublicKey
deriving DecidableEq

/-- serde derive for `JwkHeader` from a JSON value: three required string
fields, two independent optional fields, unknown fields ignored. -/
def jwkHeaderFromJson : Json → Option JwkHeader
  | Json.obj fs =>
    match reqString fs "alg", reqString fs "url", reqString fs "nonce",
        optString fs "kid", optRawJwk fs "jwk" with
    | some a, some u, some n, some kid, some jwk => some ⟨a, u, n, kid, jwk⟩
    | _, _, _, _, _ => none
  | _ => none

/-- `serde_json::from_slice::<JwkHeader>`. -/
def serdeJwkHeaderFromSlice (bs : List Nat) : Option JwkHeader :=
  (jsonParse bs).bind jwkHeaderFromJson

/-- `GeneralRequest` (handler/types.rs): the signed envelope; the three
fields are strings (`protected` is spelled `protectedHeader` because
`protected` is reserved in Lean). -/
structure GeneralRequest where
  protectedHeader : String
  payload : String
  signature : String

/-- `GeneralRequest::decode_base64`: decode with `BASE64_STANDARD`,
mapping failure to the default bad-request error. -/
def GeneralRequest.decode_base64 (slice : List Nat) : Except GenericError (List Nat) :=
  match base64StdDecode slice with
  | some v => Except.ok v
  | none => Except.error GenericError.default_bad_request

/-- `GeneralRequest::jwk_header`: `deserialize_field::<JwkHeader>` over
the protected field — base64-decode, then `serde_json::from_slice`. -/
def GeneralRequest.jwk_header (r : GeneralRequest) : Except GenericError JwkHeader :=
  match GeneralRequest.decode_base64 (strBytes r.protectedHeader) with
  | Except.error e => Except.error e
  | Except.ok raw =>
    match serdeJwkHeaderFromSlice raw with
    | some h => Except.ok h
    | none => Except.error GenericError.default_bad_request

/-- `GeneralRequest::raw_signature`: base64-decode the signature field. -/
def GeneralRequest.raw_signature (r : GeneralRequest) : Except GenericError (List Nat) :=
  GeneralRequest.decode_base64 (strBytes r.signature)

/-! ## The request handler (handler/mod.rs)

`Handler` is a trait; an implementation supplies the route constants, the
serde instance of its `RequestPayload` type, and the `handle` body.  We
embed an implementation as a structure value.  `build_error_resp`'s
default body is `todo!()`, so the error arm of `accept` panics (`none`). -/

/-- `Method` (handler/mod.rs). -/
inductive Method where
  | GET : Method
  | POST : Method
deriving DecidableEq

/-- `Method::as_str`. -/
def Method.as_str : Method → String
  | Method.GET => "GET"
  | Method.POST => "POST"

/-- `Method::from_str`: only GET and POST parse; anything else is the
`anyhow` error `unsupported method`. -/
def Method.from_str (s : String) : Option Method :=
  if s = "GET" then some Method.GET
  else if s = "POST" then some Method.POST
  else none

/-- A raw inbound request as the `RequestMarker` trait exposes it to the
handler: its method string and its raw body bytes.  (Note there is no
signature-bearing material the validation path ever consults.) -/
structure RawRequest where
  method : String
  body : List Nat

/-- `HandleOutcome`. -/
structure HandleOutcome (Data : Type) where
  data : Data
  status_code : Nat
deriving DecidableEq

/-- One implementation of the `Handler` trait: the route constants, the
serde instance for its `RequestPayload`, the handler body, and the
declared (but never consulted) `skip_jwk_verification` knob. -/
structure Handler (P Out : Type) where
  METHOD : Method
  PATH : String
  deserializePayload : List Nat → Option P
  handle : P → Except GenericError (HandleOutcome Out)
  skip_jwk_verification : Bool

/-- `Handler::validate_raw_request`: parse the method string (unsupported
methods map to a bad-request error), then deserialize the body as the
payload type (failure maps to a bad-request error).  The `// TODO verify
jwk` in the source marks that nothing else is checked: no signature is
recomputed or verified and `skip_jwk_verification` is never read. -/
def validate_raw_request {P Out : Type} (H : Handler P Out) (req : RawRequest) :
    Except GenericError P :=
  match Method.from_str req.method with
  | none => Except.error (GenericError.bad_request "unsupported method")
  | some _ =>
    match H.deserializePayload req.body with
    | none => Except.error (GenericError.bad_request "unexpected payload encopuntered")
    | some p => Except.ok p

/-- The response `build_success_resp` assembles: the outcome's status code
and serialized data. -/
inductive HttpResponse (Out : Type) where
  | success (status_code : Nat) (data : Out) : HttpResponse Out
deriving DecidableEq

/-- `Handler::accept`: validate, then either run `Self::handle` and
collapse its result, or build the error response.  Both error arms call
`build_error_resp`, whose default body is `todo!()` — a panic (`none`). -/
def accept {P Out : Type} (H : Handler P Out) (req : RawRequest) :
    Option (HttpResponse Out) :=
  match validate_raw_request H req with
  | Except.ok arg =>
    match H.handle arg with
    | Except.ok outcome => some (HttpResponse.success outcome.status_code outcome.data)
    | Except.error _ => none
  | Except.error _ => none

/-- serde derive for an empty-struct payload such as `EmptyRequest {}`:
any JSON object deserializes (unknown fields ignored), anything else
fails. -/
def emptyPayloadDeserialize (bs : List Nat) : Option Unit :=
  match jsonParse bs with
  | some (Json.obj _) => some ()
  | _ => none

/-- A concrete `Handler` implementation over the empty payload, with a
pluggable handler body — the instantiation used to exercise `accept`. -/
def demoHandler (handle : Unit → Except GenericError (HandleOutcome String)) :
    Handler Unit String :=
  ⟨Method.POST, "/demo", emptyPayloadDeserialize, handle, false⟩

/-- The JSON text of a protected header carrying `kid` and `jwk` at once
(braces around the quoted members). -/
def jwkBothJsonBytes : List Nat :=
  123 :: strBytes "\"alg\":\"ES256K\",\"url\":\"u\",\"nonce\":\"n\",\"kid\":\"acct\",\"jwk\":\"Ed25519\"" ++ [125]

/-- The JSON text of a protected header carrying neither `kid` nor
`jwk`. -/
def jwkNeitherJsonBytes : List Nat :=
  123 :: strBytes "\"alg\":\"ES256K\",\"url\":\"u\",\"nonce\":\"n\"" ++ [125]

/-! ## Certificate profile and construction (key.rs) -/

/-- `x509_cert::builder::Profile`, restricted to the two variants the
source constructs. -/
inductive Profile where
  | Root : Profile
  | Leaf (issuer : Name) (enable_key_agreement enable_key_encipherment : Bool) : Profile
deriving DecidableEq

/-- `Certificate` (key.rs): a wrapper around the subject's `AcmeKey`. -/
structure Certificate where
  key : AcmeKey

/-- `Certificate::root_name()`: parse `ROOT_NAME`. -/
def Certificate.root_name : Name := rootNameParsed

/-- `Certificate::root()`: the certificate whose key holds the root name
and `ROOT_SERIAL_NUMBER = 0`. -/
def Certificate.root : Certificate :=
  ⟨AcmeKey.new Certificate.root_name 0⟩

/-- `Certificate::profile()`: `Profile::Root` when the key's domain is the
empty name, otherwise a leaf profile issued by the root name. -/
def Certificate.profile (c : Certificate) : Profile :=
  if c.key.is_root then Profile.Root
  else Profile.Leaf Certificate.root_name true true

/-! ## Serial-number counter (cert_manager.rs) -/

/-- `CertificateManager::_inc_serial_number`: read the persisted `u64`
counter, store the counter plus one (wrapping `u64` arithmetic), and
return the value read.  The state is the counter's stored value; the
result pairs the returned serial with the new state. -/
def incSerialNumber (c : Nat) : Nat × Nat :=
  (c, (c + 1) % U64)

/-- Modelled from the spec: `CertificateManager::generate_cert` ends in
`crate::key::Certificate::new(key).build()`, and `Certificate::new` /
`Certificate::build` are absent from the sources (only this caller is
present).  Per §4.4 the built artifact embeds the drawn serial number and
the subject, so the issued certificate is modelled as that pair. -/
structure IssuedCert where
  serial : Nat
  domain : Name
deriving DecidableEq

/-- `CertificateManager::generate_cert`: draw a serial from the counter,
form the `AcmeKey`, and build the certificate for it (the build step
modelled from the spec, see `IssuedCert`).  Returns the certificate and
the new counter state. -/
def generateCert (c : Nat) (d : Name) : IssuedCert × Nat :=
  let sc := incSerialNumber c
  let key := AcmeKey.new d sc.1
  (⟨key.serial_number, key.domain⟩, sc.2)

/-- The serial numbers issued by a sequence of `generate_cert` calls with
the given domains, starting from counter state `c`. -/
def certSerials : Nat → List Name → List Nat
  | _, [] => []
  | c, d :: ds =>
    let r := generateCert c d
    r.1.serial :: certSerials r.2 ds

deriving instance DecidableEq for Except

/-! ## Theorems -/

/-- Helper: the DER encoding of any name begins with the SEQUENCE tag, so
it is nonempty. -/
theorem derName_ne_nil (n : Name) : (derName n).length ≠ 0 := by
  simp [derName, derTLV]

/-- Helper: `AcmeKey::id` panics on every key — `encode_to_slice` is
handed a zero-length slice and no DER name encoding fits in it. -/
theorem AcmeKey.id_eq_none (k : AcmeKey) : AcmeKey.id k = none := by
  unfold AcmeKey.id encodeToSlice
  rw [if_neg]
  simp only [List.length_nil, Nat.le_zero]
  exact derName_ne_nil k.domain

/-- Helper: one squeezed rate block is 72 bytes. -/
theorem length_stateBytes (st : List Nat) : (stateBytes st).length = 72 := by
  simp [stateBytes]

/-- Helper: squeezing `b` blocks yields `72 * b` bytes. -/
theorem length_squeezeBlocks (b : Nat) : ∀ st : List Nat,
    (squeezeBlocks st b).length = 72 * b := by
  induction b with
  | zero => intro st; simp [squeezeBlocks]
  | succ b ih =>
    intro st
    simp only [squeezeBlocks, List.length_append, length_stateBytes, ih]
    ring

/-- Helper: `keccakSqueeze msg n` produces exactly `n` bytes. -/
theorem length_keccakSqueeze (msg : List Nat) (n : Nat) :
    (keccakSqueeze msg n).length = n := by
  unfold keccakSqueeze
  rw [List.length_take, length_squeezeBlocks]
  have h1 := Nat.div_add_mod (n + 71) 72
  have h2 : (n + 71) % 72 < 72 := Nat.mod_lt _ (by norm_num)
  omega

/-- Helper for C2: below the wrap point the serial stream is an arithmetic
ramp. -/
theorem certSerials_eq_range (ds : List Name) : ∀ c : Nat, c + ds.length ≤ U64 →
    certSerials c ds = (List.range ds.length).map (c + ·) := by
  induction ds with
  | nil => intro c _; simp [certSerials]
  | cons d ds ih =>
    intro c hc
    simp only [certSerials, generateCert, incSerialNumber, AcmeKey.new, List.length_cons] at *
    have hlt : c + 1 ≤ U64 := by omega
    rcases Nat.lt_or_ge (c + 1) U64 with h | h
    · rw [Nat.mod_eq_of_lt h, ih (c + 1) (by omega)]
      rw [List.range_succ_eq_map]
      simp only [List.map_cons, List.map_map, Nat.add_zero]
      congr 1
      apply List.map_congr_left
      intro a _
      simp only [Function.comp_apply]
      omega
    · have : ds.length = 0 := by omega
      rw [List.length_eq_zero] at this
      subst this
      simp [certSerials, List.range_succ]

/-- C2, counterexample: the serial counter is a wrapping `u64`.  At counter
value `2 ^ 64 - 1`, `_inc_serial_number` leaves the counter at `0`, not at
the read value plus one, and the two serials drawn by two successive
`generate_cert` calls from that state are `2 ^ 64 - 1` followed by `0` —
not strictly increasing. -/
theorem c2_counterexample :
    (incSerialNumber (U64 - 1)).2 ≠ (U64 - 1) + 1 ∧
    ¬ List.Chain' (· < ·) (certSerials (U64 - 1) [rootNameParsed, rootNameParsed]) := by
  constructor
  · decide
  · have h : certSerials (U64 - 1) [rootNameParsed, rootNameParsed] = [U64 - 1, 0] := by
      decide
    rw [h]
    simp [List.chain'_cons]

/-- C2 (amended): as long as the `u64` counter cannot wrap (the starting
counter value plus the number of calls stays within `2 ^ 64`), every
`generate_cert` call embeds the counter value it read as the certificate's
serial and leaves the counter incremented, so the serial numbers issued
across any such sequence of calls are strictly increasing and pairwise
distinct. -/
theorem c2_serials_strictly_increasing (c : Nat) (ds : List Name)
    (h : c + ds.length ≤ U64) :
    List.Chain' (· < ·) (certSerials c ds) ∧
    List.Pairwise (· ≠ ·) (certSerials c ds) ∧
    ∀ d : Name, (generateCert c d).1.serial = c := by
  have hr := certSerials_eq_range ds c h
  have hpw : List.Pairwise (· < ·) (certSerials c ds) := by
    rw [hr]
    exact (List.pairwise_lt_range ds.length).map _ (fun a b hab => by omega)
  refine ⟨hpw.chain', hpw.imp (fun hab => Nat.ne_of_lt hab), fun d => rfl⟩

/-- C2, witness for the amended theorem at counter 0 and three calls. -/
theorem c2_serials_strictly_increasing_witness :
    0 + ([rootNameParsed, rootNameParsed, rootNameParsed] : List Name).length ≤ U64 ∧
    List.Chain' (· < ·) (certSerials 0 [rootNameParsed, rootNameParsed, rootNameParsed]) :=
  ⟨by decide,
   (c2_serials_strictly_increasing 0 [rootNameParsed, rootNameParsed, rootNameParsed]
     (by decide)).1⟩

/-- C8, counterexample: `Certificate::root()` does not get the `Root`
profile.  Its key holds the parsed root name `CN=IC ENCRYPT`, which is not
the empty name, so `profile()` selects the leaf profile. -/
theorem c8_counterexample :
    Certificate.root.profile ≠ Profile.Root ∧
    Certificate.root.profile = Profile.Leaf Certificate.root_name true true := by
  constructor
  · decide
  · decide

/-- C8 (amended): `profile()` returns the `Root` profile exactly when the
subject name is empty, and every other subject receives a `Leaf` profile
issued by the root name; in particular `Certificate::root()`, whose key
holds the non-empty root name `CN=IC ENCRYPT` with serial 0, receives the
leaf profile, not the root profile. -/
theorem c8_profile_selection :
    (∀ c : Certificate,
      c.profile = if c.key.domain = ([] : Name) then Profile.Root
        else Profile.Leaf Certificate.root_name true true) ∧
    Certificate.root.profile = Profile.Leaf Certificate.root_name true true := by
  constructor
  · intro c
    by_cases h : c.key.domain = ([] : Name) <;>
      simp [Certificate.profile, AcmeKey.is_root, h]
  · decide

/-- C7: `AcmeKey::id()` never returns the 64-byte Keccak-512 digest of the
DER-encoded domain and the serial bytes — it panics on every key.  The
domain is DER-encoded with `encode_to_slice` into the freshly created
empty `buff`, whose zero-length slice cannot hold any DER name encoding,
so the `unwrap` panics; and even past that point, `buff.clear()` right
before `finalize(&mut buff)` would make the squeeze write zero digest
bytes, never 64. -/
theorem c7_id_never_returns_digest : ∀ k : AcmeKey, AcmeKey.id k = none :=
  fun k => AcmeKey.id_eq_none k

/-- C3: the code does assume synchronous completion of the Signing
Authority, and the claim that the shared-cell reads always succeed with
the completed response is false.  Every run of `verifying_key` and
`try_sign` panics (`none`): the derivation id computation panics first,
and, independently, whenever the spawned `ecdsa_public_key` /
`sign_with_ecdsa` call suspends (as every Internet Computer inter-canister
call does), the suspended future still holds its clone of the `Rc`, so
`Rc::into_inner` returns `None` and its `unwrap` panics; the cell at that
moment holds only the default placeholder, not a completed response. -/
theorem c3_async_reads_panic :
    (∀ (k : AcmeKey) (c : Bool) (r : EcdsaPublicKeyResponse),
      AcmeKey.verifyingKeyRun k c r = none) ∧
    (∀ (k : AcmeKey) (m : List Nat) (c : Bool) (r : List Nat),
      AcmeKey.trySignRun k m c r = none) ∧
    (∀ (α : Type) (resp dflt : α), rcIntoInner (spawnAwaitInto false resp dflt) = none) := by
  refine ⟨fun k c r => ?_, fun k m c r => ?_, fun α resp dflt => rfl⟩
  · unfold AcmeKey.verifyingKeyRun
    rw [AcmeKey.id_eq_none]
  · unfold AcmeKey.trySignRun AcmeKey.trySignArg
    rw [AcmeKey.id_eq_none]

/-- C10, counterexample: `try_sign` never places any `message_hash` into a
`SignWithEcdsaArgument` at all — with the root key and the empty message
(or any other input) it panics while computing `self.id()`, before the
argument is built, so there is no argument with a length-0 `message_hash`
handed to the signing authority. -/
theorem c10_counterexample :
    ¬ ∃ a : SignWithEcdsaArgument,
        AcmeKey.trySignArg (AcmeKey.new rootNameParsed 0) [] = some a ∧
        a.message_hash.length = 0 := by
  rintro ⟨a, ha, -⟩
  rw [show AcmeKey.trySignArg (AcmeKey.new rootNameParsed 0) [] = none by
        unfold AcmeKey.trySignArg
        rw [AcmeKey.id_eq_none]] at ha
  exact Option.noConfusion ha

/-- C1: the handler body runs on requests whose signature was never
verified.  `validate_raw_request` consists of a method parse and a
payload deserialization only (the signature check is a `// TODO` in the
source): a bare POST whose body is the JSON object with no fields — an
envelope carrying no signature at all, let alone a verified one — passes
validation, and `accept` invokes `Handler::handle` on it: two
implementations differing only in their `handle` body produce different
responses for this same unsigned request. -/
theorem c1_handle_runs_without_signature_verification :
    validate_raw_request (demoHandler (fun _ => Except.ok ⟨"handled", 200⟩))
        ⟨"POST", [123, 125]⟩ = Except.ok () ∧
    accept (demoHandler (fun _ => Except.ok ⟨"handled", 200⟩)) ⟨"POST", [123, 125]⟩
      = some (HttpResponse.success 200 "handled") ∧
    accept (demoHandler (fun _ => Except.ok ⟨"other", 201⟩)) ⟨"POST", [123, 125]⟩
      = some (HttpResponse.success 201 "other") := by
  refine ⟨by decide, by decide, by decide⟩

/-- C9: payload-shape errors are detected before `handle` runs, but
`accept` panics instead of returning the BAD_REQUEST error response.  On
an unsupported method (`PUT`) and on a non-deserializing body (`]`),
`validate_raw_request` produces the bad-request `GenericError` the claim
describes and the handler body is never consulted (`accept` is the same
function whatever `handle` is) — but the error arm of `accept` calls the
default `build_error_resp`, whose body is `todo!()`, so `accept` panics
(`none`) and no error response is ever built. -/
theorem c9_errors_detected_but_error_response_panics :
    validate_raw_request (demoHandler (fun _ => Except.ok ⟨"handled", 200⟩))
        ⟨"PUT", [123, 125]⟩
      = Except.error (GenericError.bad_request "unsupported method") ∧
    validate_raw_request (demoHandler (fun _ => Except.ok ⟨"handled", 200⟩))
        ⟨"POST", [93]⟩
      = Except.error (GenericError.bad_request "unexpected payload encopuntered") ∧
    accept (demoHandler (fun _ => Except.ok ⟨"handled", 200⟩)) ⟨"PUT", [123, 125]⟩
      = none ∧
    accept (demoHandler (fun _ => Except.ok ⟨"handled", 200⟩)) ⟨"POST", [93]⟩
      = none ∧
    (∀ h₁ h₂, accept (demoHandler h₁) ⟨"PUT", [123, 125]⟩
      = accept (demoHandler h₂) ⟨"PUT", [123, 125]⟩) ∧
    (∀ h₁ h₂, accept (demoHandler h₁) ⟨"POST", [93]⟩
      = accept (demoHandler h₂) ⟨"POST", [93]⟩) :=
  ⟨by decide, by decide, by decide, by decide, fun h₁ h₂ => rfl, fun h₁ h₂ => rfl⟩

/-- C5: the envelope fields are decoded with `BASE64_STANDARD` — the
standard alphabet with required padding — not base64url.  The string
`-_-_` is valid base64url yet `raw_signature` rejects it as malformed,
while `+/+/` is not base64url at all yet decodes successfully; so decode
failure is not `exactly when the field is not valid base64url` in either
direction. -/
theorem c5_standard_alphabet_not_base64url :
    GeneralRequest.raw_signature ⟨"", "", "-_-_"⟩
      = Except.error GenericError.default_bad_request ∧
    b64UrlDecode (strBytes "-_-_") = some [251, 255, 191] ∧
    GeneralRequest.raw_signature ⟨"", "", "+/+/"⟩ = Except.ok [251, 255, 191] ∧
    b64UrlDecode (strBytes "+/+/") = none := by
  refine ⟨by decide, by decide, by decide, by decide⟩

/-- C6: a protected header carrying both `kid` and `jwk`, or neither, is
accepted, not rejected.  `JwkHeader` declares two independent `Option`
fields and no deserializer or consumer checks exactly-one-of: the full
`jwk_header` pipeline (base64-decode, JSON parse, serde) returns `Ok` on
a header with both fields present and on a header with neither. -/
theorem c6_both_or_neither_kid_jwk_accepted :
    GeneralRequest.jwk_header ⟨b64StdEncode jwkBothJsonBytes, "", ""⟩
      = Except.ok ⟨"ES256K", "u", "n", some "acct", some RawJwkPublicKey.Ed25519⟩ ∧
    GeneralRequest.jwk_header ⟨b64StdEncode jwkNeitherJsonBytes, "", ""⟩
      = Except.ok ⟨"ES256K", "u", "n", none, none⟩ := by
  refine ⟨by decide, by decide⟩

/-- C4, counterexample: `Es256kPublicKey::verify` is not total.  With the
generator point as key, any message, and the empty signature byte string
(which is not a 64-byte `r || s` encoding), the `.expect(..)` on
`Signature::try_from` panics instead of returning a boolean. -/
theorem c4_counterexample :
    Es256kPublicKey.verify ⟨(secpGx, secpGy)⟩ [] [] = none := by
  decide

/-- C4 (amended): `verify` returns a boolean exactly when the signature
bytes parse as a 64-byte ECDSA signature with both scalars in `[1, n-1]`
— on any other byte string (in particular truncated or out-of-range
tampering) it panics rather than returning `false` — and when the bytes
do parse, the boolean returned is the ECDSA/secp256k1 verdict on the
SHA-256 digest of the message under the key. -/
theorem c4_verify_total_exactly_on_parsing_signatures :
    (∀ (k : Es256kPublicKey) (msg sig : List Nat),
      (Es256kPublicKey.verify k msg sig).isSome ↔ (parseSignature sig).isSome) ∧
    (∀ (k : Es256kPublicKey) (msg sig : List Nat) (rs : Nat × Nat),
      parseSignature sig = some rs →
      Es256kPublicKey.verify k msg sig
        = some (ecdsaVerify k.point (beNat (sha256 msg)) rs.1 rs.2)) := by
  constructor
  · intro k msg sig
    unfold Es256kPublicKey.verify
    cases h : parseSignature sig <;> simp [h]
  · intro k msg sig rs h
    unfold Es256kPublicKey.verify
    rw [h]

/-- C4, witness: a concrete parsing signature (`r = 1`, `s = 1`) on which
the amended theorem's hypothesis is discharged by evaluation. -/
theorem c4_verify_total_exactly_on_parsing_signatures_witness :
    parseSignature (List.replicate 31 0 ++ 1 :: List.replicate 31 0 ++ [1]) = some (1, 1) ∧
    Es256kPublicKey.verify ⟨(secpGx, secpGy)⟩ []
        (List.replicate 31 0 ++ 1 :: List.replicate 31 0 ++ [1])
      = some (ecdsaVerify (secpGx, secpGy) (beNat (sha256 [])) 1 1) :=
  ⟨by decide,
   c4_verify_total_exactly_on_parsing_signatures.2 ⟨(secpGx, secpGy)⟩ []
     (List.replicate 31 0 ++ 1 :: List.replicate 31 0 ++ [1]) (1, 1) (by decide)⟩

/-- C10 (amended): `try_sign` panics while computing the derivation id,
before any `SignWithEcdsaArgument` exists, so no digest bytes of `msg`
(indeed no argument at all) ever reach the signer; the ingredients the
claim describes behave as stated in isolation — `hash_mesage` writes the
Keccak output only into the bytes already present in the caller's buffer
(its result has exactly the buffer's length), and `Vec::with_capacity(32)`
has length 0. -/
theorem c10_no_digest_reaches_signer :
    (∀ (k : AcmeKey) (msg : List Nat), AcmeKey.trySignArg k msg = none) ∧
    (∀ (msg buff : List Nat), (AcmeKey.hash_mesage msg buff).length = buff.length) ∧
    vecWithCapacity 32 = [] := by
  refine ⟨fun k msg => ?_, fun msg buff => length_keccakSqueeze msg buff.length, rfl⟩
  unfold AcmeKey.trySignArg
  rw [AcmeKey.id_eq_none]

end AcmeIC
